import Mathlib

/-!
Verification of `src/src/haiku/native/java/nio/MappedByteBuffer.cpp`.

The file defines three JNI entry points:

* `Java_java_nio_MappedByteBuffer_isLoaded0` — prints a diagnostic to
  stderr and returns `false`;
* `Java_java_nio_MappedByteBuffer_load0` — the page-touching loop:

  ```c
  int *ptr = (int *) jlong_to_ptr(address);
  int pageIncrement = pageSize / sizeof(int);
  jlong numPages = (len + pageSize - 1) / pageSize;
  int i = 0;
  int j = 0;
  for (i=0; i<numPages; i++) {
      j += *((volatile int *)ptr);
      ptr += pageIncrement;
  }
  return j;
  ```

* `Java_java_nio_MappedByteBuffer_force0` — prints a diagnostic to
  stderr and returns.

The embedding below models `jlong` as an integer in `[-2^63, 2^63)` and
`jint`/C `int` as an integer in `[-2^31, 2^31)`, with two's-complement
wrap-around applied explicitly at the operations where the C code can
overflow.  Memory is a function from byte addresses to the 4-byte word
stored there; the loop body performs no store, which the step function
reflects.  Each word read is recorded in a ghost `reads` log so that
claims about the number and the addresses of the reads can be stated.
-/

namespace MappedByteBuffer

/-- Two's-complement wrap-around of a 32-bit quantity (C `int`, Java `jint`). -/
def jintWrap (x : Int) : Int := (x + 2 ^ 31) % 2 ^ 32 - 2 ^ 31

/-- Two's-complement wrap-around of a 64-bit quantity (Java `jlong`). -/
def jlongWrap (x : Int) : Int := (x + 2 ^ 63) % 2 ^ 64 - 2 ^ 63

/-- Memory: the 4-byte word located at a given byte address. -/
abbrev Mem : Type := Int → Int

/-- `int pageIncrement = pageSize / sizeof(int);` — the per-iteration
pointer increment, measured in `int` (4-byte) units.  C division truncates
toward zero, which is `Int.tdiv`. -/
def pageIncrement (pageSize : Int) : Int := Int.tdiv pageSize 4

/-- `jlong numPages = (len + pageSize - 1) / pageSize;` — the sum
`len + pageSize - 1` is computed in `jlong` arithmetic, hence wraps at
`2^63`; the division is C truncating division. -/
def numPages (len pageSize : Int) : Int :=
  Int.tdiv (jlongWrap (len + pageSize - 1)) pageSize

/-- The state of the `load0` loop: the current read pointer `ptr` (a byte
address), the `int` accumulator `j`, the memory `mem` (threaded through the
loop so that the absence of stores is a provable fact, not a modelling
assumption), and the ghost log `reads` of the byte addresses of the 4-byte
words read so far, in order. -/
structure LoadState where
  ptr : Int
  j : Int
  mem : Mem
  reads : List Int

/-- One iteration of the loop body
`j += *((volatile int *)ptr); ptr += pageIncrement;`.
`ptr` is an `int *`, so `ptr += pageIncrement` advances the byte address by
`4 * pageIncrement` bytes; `j` is a C `int`, so the addition wraps at
`2^31`.  The read address is appended to the ghost log. -/
def loadStep (pageSize : Int) (s : LoadState) : LoadState :=
  { ptr := s.ptr + 4 * pageIncrement pageSize
    j := jintWrap (s.j + s.mem s.ptr)
    mem := s.mem
    reads := s.reads ++ [s.ptr] }

/-- Run `n` iterations of the loop body. -/
def loadRun (pageSize : Int) (s : LoadState) : Nat → LoadState
  | 0 => s
  | n + 1 => loadRun pageSize (loadStep pageSize s) n

/-- `Java_java_nio_MappedByteBuffer_load0`.  The loop counter `i` is a
32-bit C `int` compared against the `jlong` `numPages`: when
`numPages ≤ 2^31 - 1` the loop performs exactly `max numPages 0`
iterations and returns; when `numPages > 2^31 - 1` the counter `i` can
never reach `numPages` (every `int` value is smaller), so incrementing `i`
past `INT_MAX` overflows and the loop has no defined result — modelled as
`none`. -/
def load0 (address len pageSize : Int) (mem : Mem) : Option LoadState :=
  if numPages len pageSize ≤ 2 ^ 31 - 1 then
    some (loadRun pageSize ⟨address, 0, mem, []⟩ (numPages len pageSize).toNat)
  else none

/-- `Java_java_nio_MappedByteBuffer_isLoaded0`: prints
`"%s: unimplemented"` to stderr and returns `false`.  The result is the
returned `jboolean` paired with the lines written to stderr. -/
def isLoaded0 (address len : Int) : Bool × List String :=
  (false, ["Java_java_nio_MappedByteBuffer_isLoaded0: unimplemented"])

/-- `Java_java_nio_MappedByteBuffer_force0`: prints `"%s: unimplemented"`
to stderr and returns.  The result is the (untouched) memory paired with
the lines written to stderr. -/
def force0 (address len : Int) (mem : Mem) : Mem × List String :=
  (mem, ["Java_java_nio_MappedByteBuffer_force0: unimplemented"])

/-- The wrap of a sum is insensitive to wrapping the left summand first:
this is why the running 32-bit accumulator computes the wrapped exact sum. -/
theorem jintWrap_add_left (a b : Int) : jintWrap (jintWrap a + b) = jintWrap (a + b) := by
  unfold jintWrap
  have h := Int.emod_add_emod (a + 2 ^ 31) (2 ^ 32) b
  omega

/-- `jintWrap` is the identity on in-range values; in particular it is
idempotent. -/
theorem jintWrap_idem (a : Int) : jintWrap (jintWrap a) = jintWrap a := by
  have h := jintWrap_add_left a 0
  simpa using h

/-- `jlongWrap` is the identity on values representable as a `jlong`. -/
theorem jlongWrap_eq_self (x : Int) (h1 : -(2 ^ 63) ≤ x) (h2 : x < 2 ^ 63) :
    jlongWrap x = x := by
  unfold jlongWrap
  have h := Int.emod_eq_of_lt (a := x + 2 ^ 63) (b := 2 ^ 64) (by omega) (by omega)
  omega

/-- The loop body commutes with running the loop: one more iteration at the
front equals one more iteration at the back. -/
theorem loadRun_succ (pageSize : Int) (s : LoadState) (n : Nat) :
    loadRun pageSize s (n + 1) = loadStep pageSize (loadRun pageSize s n) := by
  induction n generalizing s with
  | zero => rfl
  | succ n ih =>
    show loadRun pageSize (loadStep pageSize s) (n + 1) = _
    rw [ih (loadStep pageSize s)]
    rfl

/-- Running the loop never changes memory: the body contains no store. -/
theorem loadRun_mem (pageSize : Int) (s : LoadState) (n : Nat) :
    (loadRun pageSize s n).mem = s.mem := by
  induction n generalizing s with
  | zero => rfl
  | succ n ih => simpa [loadRun, loadStep] using ih (loadStep pageSize s)

/-- The final pointer after `n` iterations. -/
theorem loadRun_ptr (pageSize : Int) (s : LoadState) (n : Nat) :
    (loadRun pageSize s n).ptr = s.ptr + (n : Int) * (4 * pageIncrement pageSize) := by
  induction n with
  | zero => simp [loadRun]
  | succ n ih =>
    rw [loadRun_succ]
    simp only [loadStep, ih]
    push_cast
    ring

/-- The addresses read by `n` iterations started at `s`: the previous log,
followed by `s.ptr + i * (4 * pageIncrement pageSize)` for `i = 0, …, n-1`. -/
theorem loadRun_reads (pageSize : Int) (s : LoadState) (n : Nat) :
    (loadRun pageSize s n).reads =
      s.reads ++ (List.range n).map
        (fun i : Nat => s.ptr + (i : Int) * (4 * pageIncrement pageSize)) := by
  induction n with
  | zero => simp [loadRun]
  | succ n ih =>
    rw [loadRun_succ]
    simp only [loadStep, ih, loadRun_ptr, List.range_succ, List.map_append,
      List.map_cons, List.map_nil, List.append_assoc]

/-- The accumulator after `n` iterations, starting from an in-range `j`:
the 32-bit wrap of `j` plus the exact sum of the words read. -/
theorem loadRun_j (pageSize : Int) (s : LoadState) (n : Nat)
    (hj : jintWrap s.j = s.j) :
    (loadRun pageSize s n).j =
      jintWrap (s.j + ((List.range n).map
        (fun i : Nat => s.mem (s.ptr + (i : Int) * (4 * pageIncrement pageSize)))).sum) := by
  induction n with
  | zero => simpa [loadRun] using hj.symm
  | succ n ih =>
    rw [loadRun_succ]
    simp only [loadStep, ih, loadRun_mem, loadRun_ptr, jintWrap_add_left,
      List.range_succ, List.map_append, List.map_cons, List.map_nil,
      List.sum_append, List.sum_cons, List.sum_nil]
    congr 1
    ring

/-- For nonnegative `len` and positive `ps`, `(len + ps - 1) / ps` is the
ceiling of `len / ps`: the floor quotient, plus one when `ps` does not
divide `len`. -/
theorem add_sub_one_ediv (len ps : Int) (h0 : 0 ≤ len) (h1 : 0 < ps) :
    (len + ps - 1) / ps = len / ps + if ps ∣ len then 0 else 1 := by
  have hne : ps ≠ 0 := ne_of_gt h1
  by_cases hd : ps ∣ len
  · obtain ⟨q, hq⟩ := hd
    have hq' : len + ps - 1 = (ps - 1) + q * ps := by rw [hq]; ring
    rw [if_pos ⟨q, hq⟩, hq', Int.add_mul_ediv_right _ _ hne,
      Int.ediv_eq_zero_of_lt (by omega) (by omega), hq,
      Int.mul_ediv_cancel_left _ hne, zero_add, add_zero]
  · have hr0 : 0 ≤ len % ps := Int.emod_nonneg len hne
    have hrlt : len % ps < ps := Int.emod_lt_of_pos len h1
    have hrne : len % ps ≠ 0 := fun h => hd (Int.dvd_iff_emod_eq_zero.mpr h)
    have hq : ps * (len / ps) + len % ps = len := Int.ediv_add_emod len ps
    have hq' : len + ps - 1 = (len % ps - 1) + (len / ps + 1) * ps := by
      linear_combination -hq
    rw [if_neg hd, hq', Int.add_mul_ediv_right _ _ hne,
      Int.ediv_eq_zero_of_lt (by omega) (by omega), zero_add]

/-- C truncating division of a negative dividend by a positive divisor is
non-positive. -/
theorem tdiv_nonpos_of_neg (x ps : Int) (hx : x < 0) (hps : 0 < ps) :
    Int.tdiv x ps ≤ 0 := by
  have h1 : Int.tdiv (-x) ps = -Int.tdiv x ps := Int.neg_tdiv x ps
  have h2 : Int.tdiv (-x) ps = (-x) / ps := Int.tdiv_eq_ediv (by omega) (le_of_lt hps)
  have h3 : 0 ≤ (-x) / ps := Int.ediv_nonneg (by omega) (le_of_lt hps)
  omega

/-- When `len ≥ 0`, `pageSize > 0` and `len + pageSize - 1` fits in a
`jlong`, `numPages` is the exact (unwrapped) quotient `(len + ps - 1) / ps`. -/
theorem numPages_eq_of_no_overflow (len ps : Int) (h0 : 0 ≤ len) (h1 : 0 < ps)
    (h2 : len + ps - 1 ≤ 2 ^ 63 - 1) :
    numPages len ps = (len + ps - 1) / ps := by
  unfold numPages
  rw [jlongWrap_eq_self _ (by omega) (by omega)]
  exact Int.tdiv_eq_ediv (by omega) (le_of_lt h1)

/-- When `len < 0` fits in a `jlong` and `0 < pageSize ≤ INT_MAX`, the
computed page count is non-positive. -/
theorem numPages_nonpos_of_neg (len ps : Int) (hl : -(2 ^ 63) ≤ len) (h0 : len < 0)
    (h1 : 0 < ps) (h2 : ps ≤ 2 ^ 31 - 1) :
    numPages len ps ≤ 0 := by
  unfold numPages
  rw [jlongWrap_eq_self _ (by omega) (by omega)]
  rcases lt_or_le (len + ps - 1) 0 with hneg | hpos
  · exact tdiv_nonpos_of_neg _ _ hneg h1
  · rw [Int.tdiv_eq_ediv hpos (le_of_lt h1),
      Int.ediv_eq_zero_of_lt hpos (by omega)]

/-- With `pageSize = 0` excluded and the page count zero, running zero
iterations leaves the initial state; a helper shared by the zero-page
claims. -/
theorem load0_of_numPages_nonpos (address len pageSize : Int) (mem : Mem)
    (h : numPages len pageSize ≤ 0) :
    load0 address len pageSize mem =
      some { ptr := address, j := 0, mem := mem, reads := [] } := by
  rw [load0, if_pos (by omega), Int.toNat_of_nonpos h]
  rfl

/-- For a positive page size divisible by 4 — `sizeof(int)` — the byte
stride `4 * pageIncrement pageSize` of the loop is exactly `pageSize`. -/
theorem stride_eq_pageSize (ps : Int) (h1 : 0 < ps) (h4 : (4 : Int) ∣ ps) :
    4 * pageIncrement ps = ps := by
  unfold pageIncrement
  rw [Int.tdiv_eq_ediv (le_of_lt h1) (by omega)]
  exact Int.mul_ediv_cancel' h4

/-- C1, counterexample: the claim quantifies over every `len ≥ 0`, but at
`len = 2^63 - 1`, `pageSize = 2` the `jlong` sum `len + pageSize - 1`
wraps to `-2^63`, so `numPages = -2^62`, the loop body never runs, and
`load0` performs `0` reads — not the `ceil(len/pageSize) = 2^62` the claim
requires. -/
theorem c1_counterexample :
    (load0 0 (2 ^ 63 - 1) 2 (fun _ => 0)).map (fun s => (s.reads.length : Int)) =
        some 0 ∧
      (0 : Int) ≠ (2 ^ 63 - 1) / 2 + (if (2 : Int) ∣ (2 ^ 63 - 1) then 0 else 1) := by
  constructor
  · decide
  · decide

/-- C1 (amended): for every `len ≥ 0` and `pageSize > 0` such that the
`jlong` sum `len + pageSize - 1` does not overflow and the page count fits
the 32-bit loop counter, `load0` performs exactly `ceil(len / pageSize)`
page reads: `len / pageSize` when `pageSize` divides `len`, and one extra
read for a trailing partial page otherwise. -/
theorem c1_read_count (address len pageSize : Int) (mem : Mem)
    (h0 : 0 ≤ len) (h1 : 0 < pageSize)
    (h2 : len + pageSize - 1 ≤ 2 ^ 63 - 1)
    (h3 : (len + pageSize - 1) / pageSize ≤ 2 ^ 31 - 1) :
    (load0 address len pageSize mem).map (fun s => (s.reads.length : Int)) =
      some (len / pageSize + if pageSize ∣ len then 0 else 1) := by
  have hnp : numPages len pageSize = (len + pageSize - 1) / pageSize :=
    numPages_eq_of_no_overflow len pageSize h0 h1 h2
  have hnn : 0 ≤ numPages len pageSize := by
    rw [hnp]; exact Int.ediv_nonneg (by omega) (le_of_lt h1)
  rw [load0, if_pos (by omega), Option.map_some', loadRun_reads]
  simp only [List.nil_append, List.length_map, List.length_range]
  rw [Int.toNat_of_nonneg hnn, hnp, add_sub_one_ediv len pageSize h0 h1]

/-- C1, witness: the spec's own example `len = 9000`, `pageSize = 4096`
gives three page reads. -/
theorem c1_witness :
    (load0 0 9000 4096 (fun _ => 0)).map (fun s => (s.reads.length : Int)) =
      some ((9000 : Int) / 4096 + if (4096 : Int) ∣ 9000 then 0 else 1) :=
  c1_read_count 0 9000 4096 (fun _ => 0) (by decide) (by decide) (by decide) (by decide)

/-- C2, counterexample: the claim quantifies over every `pageSize > 0`,
but the pointer advances by `pageIncrement = pageSize / sizeof(int)` `int`
units, i.e. by `4 * (pageSize / 4)` bytes — not by `pageSize` bytes.  At
`pageSize = 5`, `len = 10` the second read (index `i = 1`) is at byte
offset `4`, not at `base + 1 * 5 = 5`. -/
theorem c2_counterexample :
    (load0 0 10 5 (fun _ => 0)).map (fun s => s.reads.getD 1 0) = some 4 ∧
      (4 : Int) ≠ 0 + 1 * 5 := by
  constructor
  · decide
  · decide

/-- C2 (amended): for every `pageSize > 0` that is a multiple of
`sizeof(int) = 4` (so that the `int`-pointer stride is exactly `pageSize`
bytes), the `i`-th read performed by `load0` is the 4-byte word at
`base + i * pageSize`, for every `i` below the number of reads. -/
theorem c2_read_addresses (address len pageSize : Int) (mem : Mem)
    (h1 : 0 < pageSize) (h4 : (4 : Int) ∣ pageSize) :
    (load0 address len pageSize mem).map (fun s => s.reads) =
      (load0 address len pageSize mem).map (fun s =>
        (List.range s.reads.length).map (fun i : Nat => address + (i : Int) * pageSize)) := by
  unfold load0
  split
  · rw [Option.map_some', Option.map_some', loadRun_reads]
    simp only [List.nil_append, List.length_map, List.length_range]
    refine congrArg some (List.map_congr_left fun i _ => ?_)
    rw [stride_eq_pageSize pageSize h1 h4]
  · rfl

/-- C2, witness: at `len = 9000`, `pageSize = 4096` the reads are at
`base + i * 4096`. -/
theorem c2_witness :
    (load0 0 9000 4096 (fun _ => 0)).map (fun s => s.reads) =
      (load0 0 9000 4096 (fun _ => 0)).map (fun s =>
        (List.range s.reads.length).map (fun i : Nat => 0 + (i : Int) * 4096)) :=
  c2_read_addresses 0 9000 4096 (fun _ => 0) (by decide) (by decide)

/-- C3, counterexample: at `pageSize = 5` (which evenly divides
`len = 10`) the two reads land at byte offsets `0` and `4`, both inside
page `0`: a page is visited twice and page `1` is skipped, because the
stride is `4 * (5 / 4) = 4` bytes, not `5`. -/
theorem c3_counterexample :
    (load0 0 10 5 (fun _ => 0)).map (fun s => s.reads.map (fun r => (r - 0) / 5)) =
        some [0, 0] ∧
      ¬ ([(0 : Int), 0].Nodup) := by
  constructor
  · decide
  · decide

/-- C3 (amended): for every `pageSize > 0` that is a multiple of 4 and
evenly divides `len`, with no `jlong` overflow and a page count within the
32-bit loop counter, the pages visited by `load0` (the page index of each
read, in order) are exactly `0, 1, …, len / pageSize - 1`: each page of
the region exactly once, none repeated, none skipped. -/
theorem c3_pages_once (address len pageSize : Int) (mem : Mem)
    (h1 : 0 < pageSize) (h4 : (4 : Int) ∣ pageSize) (hdvd : pageSize ∣ len)
    (h0 : 0 ≤ len) (h2 : len + pageSize - 1 ≤ 2 ^ 63 - 1)
    (h3 : len / pageSize ≤ 2 ^ 31 - 1) :
    (load0 address len pageSize mem).map
        (fun s => s.reads.map (fun r => (r - address) / pageSize)) =
      some ((List.range (len / pageSize).toNat).map (fun i : Nat => (i : Int))) := by
  have hnp : numPages len pageSize = len / pageSize := by
    rw [numPages_eq_of_no_overflow len pageSize h0 h1 h2,
      add_sub_one_ediv len pageSize h0 h1, if_pos hdvd, add_zero]
  rw [load0, if_pos (by omega), Option.map_some', loadRun_reads]
  simp only [List.nil_append, List.map_map]
  rw [hnp]
  refine congrArg some (List.map_congr_left fun i _ => ?_)
  simp only [Function.comp_apply]
  rw [stride_eq_pageSize pageSize h1 h4, add_sub_cancel_left,
    Int.mul_ediv_cancel _ (ne_of_gt h1)]

/-- C3, witness: a `8192`-byte region with `pageSize = 4096` visits pages
`0` and `1`, each exactly once. -/
theorem c3_witness :
    (load0 0 8192 4096 (fun _ => 0)).map
        (fun s => s.reads.map (fun r => (r - 0) / 4096)) =
      some ((List.range ((8192 : Int) / 4096).toNat).map (fun i : Nat => (i : Int))) :=
  c3_pages_once 0 8192 4096 (fun _ => 0) (by decide) (by decide) (by decide)
    (by decide) (by decide) (by decide)

/-- C4: whenever `load0` returns, the returned `jint` is the 32-bit
two's-complement wrap of the exact sum of the 4-byte words it read, in
particular of the `numPages` words logged in `reads`. -/
theorem c4_result_is_wrapped_sum (address len pageSize : Int) (mem : Mem) :
    (load0 address len pageSize mem).map (fun s => s.j) =
      (load0 address len pageSize mem).map
        (fun s => jintWrap ((s.reads.map mem).sum)) := by
  unfold load0
  split
  · rw [Option.map_some', Option.map_some',
      loadRun_j pageSize _ _ (by show jintWrap 0 = 0; decide), loadRun_reads]
    simp only [List.nil_append, List.map_map, zero_add, Function.comp_def]
  · rfl

/-- C5: for `length == 0` and any positive `jint` page size, `load0`
performs zero memory reads and returns `0` — the loop bound
`(0 + pageSize - 1) / pageSize` is zero, so the final state is the initial
state. -/
theorem c5_zero_length (address pageSize : Int) (mem : Mem)
    (h1 : 0 < pageSize) (h2 : pageSize ≤ 2 ^ 31 - 1) :
    load0 address 0 pageSize mem =
      some { ptr := address, j := 0, mem := mem, reads := [] } := by
  refine load0_of_numPages_nonpos address 0 pageSize mem ?_
  rw [numPages_eq_of_no_overflow 0 pageSize le_rfl h1 (by omega),
    Int.ediv_eq_zero_of_lt (by omega) (by omega)]

/-- C5, witness: `pageSize = 4096`, zero length: no reads, result `0`. -/
theorem c5_witness :
    load0 7 0 4096 (fun _ => 0) =
      some { ptr := 7, j := 0, mem := fun _ => 0, reads := [] } :=
  c5_zero_length 7 4096 (fun _ => 0) (by decide) (by decide)

/-- C6: `load0` never writes to memory — the loop body contains only a
read — so whenever it returns, the word at every byte address (in
particular every address of the mapped region) is unchanged. -/
theorem c6_no_write (address len pageSize : Int) (mem : Mem) (a : Int) :
    (load0 address len pageSize mem).map (fun s => s.mem a) =
      (load0 address len pageSize mem).map (fun _ => mem a) := by
  unfold load0
  split
  · rw [Option.map_some', Option.map_some', loadRun_mem]
  · rfl

/-- C7: `isLoaded0` returns `false` — "not resident" — for every address
and length. -/
theorem c7_isLoaded0_false (address len : Int) :
    (isLoaded0 address len).1 = false := rfl

/-- C8: `force0` performs no flush and leaves the mapped region (and all
program state it can reach) unchanged for every input; its only observable
action is the `"%s: unimplemented"` diagnostic on stderr. -/
theorem c8_force0_no_flush (address len : Int) (mem : Mem) :
    (force0 address len mem).1 = mem ∧
      (force0 address len mem).2 =
        ["Java_java_nio_MappedByteBuffer_force0: unimplemented"] :=
  ⟨rfl, rfl⟩

/-- C9, counterexample: the loop counter `i` is a 32-bit `int` compared
against the `jlong` `numPages`; at `len = 2^40`, `pageSize = 4` the page
count `2^38` exceeds `INT_MAX`, the counter can never reach it, and the
call has no defined completion — `load0` yields no result. -/
theorem c9_counterexample :
    load0 0 (2 ^ 40) 4 (fun _ => 0) = none := by
  rfl

/-- C9 (amended): under `pageSize > 0`, whenever the computed page count
also fits the 32-bit loop counter (`numPages ≤ 2^31 - 1`), `load0`
terminates, and it terminates only after completing the full fixed number
`numPages` of page visits — there is no early exit, cancellation or
timeout path. -/
theorem c9_full_visits (address len pageSize : Int) (mem : Mem)
    (h1 : 0 < pageSize) (h3 : numPages len pageSize ≤ 2 ^ 31 - 1) :
    (load0 address len pageSize mem).map (fun s => s.reads.length) =
      some (numPages len pageSize).toNat := by
  rw [load0, if_pos h3, Option.map_some', loadRun_reads]
  simp only [List.nil_append, List.length_map, List.length_range]

/-- C9, witness: `len = 9000`, `pageSize = 4096` terminates after exactly
`numPages` visits. -/
theorem c9_witness :
    (load0 0 9000 4096 (fun _ => 0)).map (fun s => s.reads.length) =
      some (numPages 9000 4096).toNat :=
  c9_full_visits 0 9000 4096 (fun _ => 0) (by decide) (by decide)

/-- C10: for every representable negative `len` and positive `jint`
`pageSize` (for which `len + pageSize - 1` cannot overflow), the computed
page count is non-positive, the loop body never executes, and `load0`
performs zero reads and returns `0`. -/
theorem c10_negative_length (address len pageSize : Int) (mem : Mem)
    (hl : -(2 ^ 63) ≤ len) (h0 : len < 0)
    (h1 : 0 < pageSize) (h2 : pageSize ≤ 2 ^ 31 - 1) :
    load0 address len pageSize mem =
      some { ptr := address, j := 0, mem := mem, reads := [] } :=
  load0_of_numPages_nonpos address len pageSize mem
    (numPages_nonpos_of_neg len pageSize hl h0 h1 h2)

/-- C10, witness: `len = -7`, `pageSize = 4096`: no reads, result `0`. -/
theorem c10_witness :
    load0 3 (-7) 4096 (fun _ => 0) =
      some { ptr := 3, j := 0, mem := fun _ => 0, reads := [] } :=
  c10_negative_length 3 (-7) 4096 (fun _ => 0) (by decide) (by decide)
    (by decide) (by decide)

end MappedByteBuffer
